import Mathlib

/-!
Shallow embedding of the throttle_control repository's quota coordination
core (Go sources: internal/central/guota.go, internal/central/server.go,
internal/common/types.go, and the application-node agent file).

Modelling conventions:
* Go `map[K]V` becomes an association list `List (K × V)` with unique keys
  in every state the program constructs; lookups read the first matching
  entry and in-place pointer mutation becomes `updateKey`, which rewrites
  the first matching entry.
* Go `int64` / `int` become `Int`; the quantities the claims reach stay
  far below 2^63, so wrap-around is never exercised.
* `time.Time` / `time.Duration` become `Int` ticks; `time.Since(t)` is
  `now - t`.
* Locks, goroutines and sleeps are elided: each exported operation is the
  sequential state transformer its body performs.
-/

namespace ThrottleControl

/-- First-match lookup in an association list, as a Go map read. -/
def lookupKey {κ β : Type} [DecidableEq κ] (k : κ) : List (κ × β) → Option β
  | [] => none
  | (k', v) :: rest => if k' = k then some v else lookupKey k rest

/-- Rewrite the first entry with key `k` by `f`, as mutation through a Go
map's stored pointer; a missing key leaves the list unchanged. -/
def updateKey {κ β : Type} [DecidableEq κ] (k : κ) (f : β → β) : List (κ × β) → List (κ × β)
  | [] => []
  | (k', v) :: rest => if k' = k then (k', f v) :: rest else (k', v) :: updateKey k f rest

namespace common

/-- internal/common/types.go `RateControlMethod`: declared in the source
but never consumed by the coordinator's quota manager. -/
inductive RateControlMethod where
  | none
  | tokenBucket
  | fixedWindow
deriving DecidableEq

/-- internal/common/types.go `ProfileQuota`. -/
structure ProfileQuota where
  ProfileID : Int
  Required : Int
deriving DecidableEq

/-- internal/common/types.go `ProfileQuotaResponse`. The Go struct
literal in CheckQuota omits `RateLimited`, so it is the zero value
`false` in every response the coordinator builds. -/
structure ProfileQuotaResponse where
  ProfileID : Int
  Granted : Int
  Required : Int
  RateLimited : Bool
deriving DecidableEq

/-- internal/common/types.go `QuotaRequest`. -/
structure QuotaRequest where
  NodeID : String
  RequestID : String
  Quotas : List ProfileQuota
  Timestamp : Int
deriving DecidableEq

/-- internal/common/types.go `QuotaResponse`. -/
structure QuotaResponse where
  RequestID : String
  Quotas : List ProfileQuotaResponse
  ExpiresAt : Int
deriving DecidableEq

/-- internal/common/types.go `Status`. -/
inductive Status where
  | StatusOK
  | StatusError
  | StatusRateLimited
deriving DecidableEq

/-- internal/common/types.go `Response` (node-side reply). -/
structure Response where
  RequestID : String
  Status : Status
deriving DecidableEq

/-- internal/common/types.go `Request` (node-side work request); the Go
field `Quotas map[int]ProfileQuota` is an association list here. -/
structure Request where
  RequestID : String
  NodeID : String
  Quotas : List (Int × ProfileQuota)
deriving DecidableEq

end common

namespace central

open common

/-- internal/central/guota.go `ProfileConfig` (the central package's own
config struct: total quota and description only — it carries no
rate-control method, window, burst or rate limit). -/
structure ProfileConfig where
  TotalQuota : Int
  Description : String
deriving DecidableEq

/-- internal/central/guota.go `NodeQuota`. -/
structure NodeQuota where
  allocated : Int
  lastCheck : Int
deriving DecidableEq

/-- internal/central/guota.go `ProfileManager`. -/
structure ProfileManager where
  profileID : Int
  totalQuota : Int
  usedQuota : Int
  nodeQuotas : List (String × NodeQuota)
deriving DecidableEq

/-- internal/central/guota.go `QuotaManager` (the mutex is elided). -/
structure QuotaManager where
  profiles : List (Int × ProfileManager)
  refreshInterval : Int
deriving DecidableEq

/-- internal/central/guota.go `NewQuotaManager`: every profile starts
with `usedQuota = 0` and an empty node map. -/
def NewQuotaManager (refreshInterval : Int) (profileConfigs : List (Int × ProfileConfig)) : QuotaManager :=
  { profiles := profileConfigs.map fun pc =>
      (pc.1, { profileID := pc.1, totalQuota := pc.2.TotalQuota, usedQuota := 0, nodeQuotas := [] })
    refreshInterval := refreshInterval }

/-- guota.go CheckQuota lines 80–86: get-or-create the node's entry for
this profile (created with zero `allocated` and `lastCheck := now`). -/
def ensureNode (nodeID : String) (now : Int) (mgr : ProfileManager) : ProfileManager :=
  match lookupKey nodeID mgr.nodeQuotas with
  | some _ => mgr
  | none => { mgr with nodeQuotas := mgr.nodeQuotas ++ [(nodeID, ⟨0, now⟩)] }

/-- guota.go CheckQuota lines 88–100: grant `min(required, remaining)`
and, only when the grant is positive, debit `usedQuota` and credit the
node's `allocated`, stamping `lastCheck := now`. -/
def grantStep (nodeID : String) (now : Int) (required : Int) (mgr : ProfileManager) : Int × ProfileManager :=
  let remaining := mgr.totalQuota - mgr.usedQuota
  let granted := if remaining < required then remaining else required
  if 0 < granted then
    (granted,
      { mgr with
        usedQuota := mgr.usedQuota + granted
        nodeQuotas := updateKey nodeID (fun nq => ⟨nq.allocated + granted, now⟩) mgr.nodeQuotas })
  else
    (granted, mgr)

/-- One iteration of the CheckQuota loop (guota.go lines 67–107): an
unknown profile answers `{granted 0, required, rate_limited false}` and
leaves the state alone; a known profile goes through `ensureNode` and
`grantStep`. -/
def checkOne (nodeID : String) (now : Int) (pq : ProfileQuota) (qm : QuotaManager) :
    ProfileQuotaResponse × QuotaManager :=
  match lookupKey pq.ProfileID qm.profiles with
  | none => (⟨pq.ProfileID, 0, pq.Required, false⟩, qm)
  | some mgr =>
    let mgr₁ := ensureNode nodeID now mgr
    let out := grantStep nodeID now pq.Required mgr₁
    (⟨pq.ProfileID, out.1, pq.Required, false⟩,
      { qm with profiles := updateKey pq.ProfileID (fun _ => out.2) qm.profiles })

/-- The CheckQuota loop over the request's quota entries, threading the
manager state left to right. -/
def processQuotas (nodeID : String) (now : Int) :
    List ProfileQuota → QuotaManager → List ProfileQuotaResponse × QuotaManager
  | [], qm => ([], qm)
  | pq :: rest, qm =>
    let head := checkOne nodeID now pq qm
    let tail := processQuotas nodeID now rest head.2
    (head.1 :: tail.1, tail.2)

/-- internal/central/guota.go `CheckQuota` (lines 60–114). -/
def CheckQuota (req : QuotaRequest) (now : Int) (qm : QuotaManager) : QuotaResponse × QuotaManager :=
  let out := processQuotas req.NodeID now req.Quotas qm
  (⟨req.RequestID, out.1, now + qm.refreshInterval⟩, out.2)

/-- internal/central/guota.go `refresh` (lines 127–138): for every
profile, reset `usedQuota` to zero and zero every node's `allocated`,
unconditionally. -/
def refresh (qm : QuotaManager) : QuotaManager :=
  { qm with profiles := qm.profiles.map fun p =>
      (p.1, { p.2 with
        usedQuota := 0
        nodeQuotas := p.2.nodeQuotas.map fun q => (q.1, { q.2 with allocated := 0 }) }) }

/-- internal/central/server.go `validateQuotaRequest` (lines 315–328):
note the `q.Required <= 0` test, which rejects `required = 0`. -/
def validateQuotaRequest (req : QuotaRequest) : Option String :=
  if req.NodeID = "" then some "node_id is required"
  else if req.Quotas.length = 0 then some "quotas cannot be empty"
  else if req.Quotas.any (fun q => decide (q.Required ≤ 0)) then some "required quota must be positive"
  else none

/-- Sum of the `allocated` fields of a profile's per-node records. -/
def allocSum (l : List (String × NodeQuota)) : Int :=
  (l.map fun p => p.2.allocated).sum

/-- A coordinator-side operation: a CheckQuota call at some tick, or one
firing of the periodic refresh task. -/
inductive COp where
  | check (req : QuotaRequest) (now : Int)
  | refreshTick
deriving DecidableEq

/-- Apply one coordinator operation to the manager state. -/
def applyOp (op : COp) (qm : QuotaManager) : QuotaManager :=
  match op with
  | .check req now => (CheckQuota req now qm).2
  | .refreshTick => refresh qm

/-- Run a sequence of coordinator operations. -/
def runOps : List COp → QuotaManager → QuotaManager
  | [], qm => qm
  | op :: rest, qm => runOps rest (applyOp op qm)

/-- Grant ladder as the specification words it: for each required amount
in turn, `granted = min(required, total_quota − used)` with `used`
advanced by positive grants; returns the grant list and the final
`used`. -/
def grantRun (total : Int) : Int → List Int → List Int × Int
  | u, [] => ([], u)
  | u, r :: rs =>
    let g := min r (total - u)
    let tail := grantRun total (if 0 < g then u + g else u) rs
    (g :: tail.1, tail.2)

end central

namespace application

open common

/-- Application node `LocalQuota`. The opaque `rateLimiter RateLimiter`
handle (an interface with a single method `Allow() → bool` and no
implementation in the source) is modelled by the Boolean verdict its
`Allow` call returns during the operation under study. -/
structure LocalQuota where
  allocated : Int
  used : Int
  lastRefresh : Int
  rateLimiterAllow : Bool
deriving DecidableEq

/-- Application node `Node` (client handle and mutex elided; the
`NodeConfig` fields the claims reach are inlined). -/
structure Node where
  nodeID : String
  localQuotas : List (Int × LocalQuota)
  refreshInterval : Int
  maxRetries : Nat
deriving DecidableEq

/-- The three admission failures HandleRequest can return: a formatted
"profile %d not configured" error, `common.ErrRateLimited`, or
`common.ErrQuotaExceeded`. -/
inductive HandleErr where
  | profileUnknown (pid : Int)
  | rateLimited
  | quotaExceeded
deriving DecidableEq

/-- HandleRequest's first loop (node file lines 57–72): scan the named
profiles in order and return the first failure, mutating nothing. -/
def checkAll (lqs : List (Int × LocalQuota)) : List (Int × ProfileQuota) → Option HandleErr
  | [] => none
  | (pid, q) :: rest =>
    match lookupKey pid lqs with
    | none => some (.profileUnknown pid)
    | some lq =>
      if lq.rateLimiterAllow = false then some .rateLimited
      else if lq.allocated - lq.used < q.Required then some .quotaExceeded
      else checkAll lqs rest

/-- HandleRequest's second loop (lines 80–82): debit
`used += quota.Required` for every named profile. -/
def debitAll (entries : List (Int × ProfileQuota)) (lqs : List (Int × LocalQuota)) :
    List (Int × LocalQuota) :=
  entries.foldl
    (fun acc e => updateKey e.1 (fun lq => { lq with used := lq.used + e.2.Required }) acc) lqs

/-- Application node `HandleRequest` (lines 52–88): check every named
profile, then — only when every check passed — debit them all and answer
`{request id, StatusOK}`. -/
def HandleRequest (req : Request) (n : Node) : Except HandleErr Response × Node :=
  match checkAll n.localQuotas req.Quotas with
  | some e => (.error e, n)
  | none =>
    (.ok ⟨req.RequestID, .StatusOK⟩,
      { n with localQuotas := debitAll req.Quotas n.localQuotas })

/-- The retry loop of refreshQuotas (lines 123–129): starting at attempt
index `i` with the given fuel, call the coordinator, stop at the first
success; returns the outcome and the number of attempts performed. The
coordinator call is the oracle `call`, indexed by attempt number
(`none` = transport failure). -/
def retryFrom (call : Nat → Option QuotaResponse) : Nat → Nat → Option QuotaResponse × Nat
  | _, 0 => (none, 0)
  | i, fuel + 1 =>
    match call i with
    | some r => (some r, 1)
    | none =>
      let tail := retryFrom call (i + 1) fuel
      (tail.1, tail.2 + 1)

/-- The whole retry loop: `MaxRetries` iterations from attempt 0. -/
def retryLoop (call : Nat → Option QuotaResponse) (maxR : Nat) : Option QuotaResponse × Nat :=
  retryFrom call 0 maxR

/-- refreshQuotas' update phase (lines 137–144): for every response
entry naming a locally-known profile, replace `allocated` with the
returned `Granted` and stamp `lastRefresh := now`; `used` is untouched. -/
def applyRefresh (resp : QuotaResponse) (now : Int) (n : Node) : Node :=
  let lqs := resp.Quotas.foldl
    (fun acc pr => updateKey pr.ProfileID
      (fun lq => { lq with allocated := pr.Granted, lastRefresh := now }) acc)
    n.localQuotas
  { n with localQuotas := lqs }

/-- Application node `refreshQuotas` (lines 101–145). In Go, `err` starts
nil, so a `MaxRetries` of zero skips the loop and proceeds to the update
phase with the zero-valued (empty) response; otherwise a run in which
every attempt failed returns without touching local state. -/
def refreshQuotas (call : Nat → Option QuotaResponse) (now : Int) (n : Node) : Node :=
  match (retryLoop call n.maxRetries).1 with
  | some resp => applyRefresh resp now n
  | none => if n.maxRetries = 0 then applyRefresh ⟨"", [], 0⟩ now n else n

/-- Application node `HealthCheck` (lines 170–186): fail when no
profiles are configured, or when some profile's `lastRefresh` is older
than twice the refresh interval (`time.Since(lastRefresh) >
RefreshInterval*2`). -/
def HealthCheck (now : Int) (n : Node) : Option String :=
  if n.localQuotas.length = 0 then some "no profiles configured"
  else
    match n.localQuotas.find? (fun q => decide (n.refreshInterval * 2 < now - q.2.lastRefresh)) with
    | some _ => some "quota refresh stale"
    | none => none

end application

/-! ### Association-list lemmas -/

theorem lookupKey_updateKey_self {κ β : Type} [DecidableEq κ] (k : κ) (f : β → β) :
    ∀ (l : List (κ × β)) (v : β), lookupKey k l = some v →
      lookupKey k (updateKey k f l) = some (f v) := by
  intro l
  induction l with
  | nil => intro v h; simp [lookupKey] at h
  | cons hd tl ih =>
    intro v h
    obtain ⟨k', v'⟩ := hd
    by_cases hk : k' = k
    · subst hk
      simp [lookupKey, updateKey] at h ⊢
      simp [h]
    · simp [lookupKey, updateKey, hk] at h ⊢
      exact ih v h

theorem lookupKey_updateKey_ne {κ β : Type} [DecidableEq κ] {k k' : κ} (f : β → β)
    (hne : k' ≠ k) : ∀ l : List (κ × β), lookupKey k (updateKey k' f l) = lookupKey k l := by
  intro l
  induction l with
  | nil => rfl
  | cons hd tl ih =>
    obtain ⟨a, b⟩ := hd
    by_cases ha : a = k'
    · subst ha
      have hak : a ≠ k := hne
      simp [lookupKey, updateKey, hak]
    · by_cases hak : a = k
      · subst hak
        simp [lookupKey, updateKey, ha]
      · simp [lookupKey, updateKey, ha, hak, ih]

theorem updateKey_of_lookupKey_none {κ β : Type} [DecidableEq κ] (k : κ) (f : β → β) :
    ∀ l : List (κ × β), lookupKey k l = none → updateKey k f l = l := by
  intro l
  induction l with
  | nil => intro _; rfl
  | cons hd tl ih =>
    intro h
    obtain ⟨a, b⟩ := hd
    by_cases ha : a = k
    · subst ha; simp [lookupKey] at h
    · simp [lookupKey, ha] at h
      simp [updateKey, ha, ih h]

theorem mem_updateKey {κ β : Type} [DecidableEq κ] {k : κ} {f : β → β} :
    ∀ {l : List (κ × β)} {x : κ × β}, x ∈ updateKey k f l →
      x ∈ l ∨ ∃ v, lookupKey k l = some v ∧ x = (k, f v) := by
  intro l
  induction l with
  | nil => intro x hx; simp [updateKey] at hx
  | cons hd tl ih =>
    intro x hx
    obtain ⟨a, b⟩ := hd
    by_cases ha : a = k
    · subst ha
      simp only [updateKey, if_pos rfl] at hx
      rcases List.mem_cons.1 hx with h | h
      · right; exact ⟨b, by simp [lookupKey], h⟩
      · left; exact List.mem_cons_of_mem _ h
    · simp only [updateKey, if_neg ha] at hx
      rcases List.mem_cons.1 hx with h | h
      · left; exact h ▸ List.mem_cons_self _ _
      · rcases ih h with h' | ⟨v, hv, hx'⟩
        · left; exact List.mem_cons_of_mem _ h'
        · right; exact ⟨v, by simp [lookupKey, ha, hv], hx'⟩

theorem sum_map_updateKey {κ β : Type} [DecidableEq κ] (g : β → Int) (k : κ) (f : β → β) :
    ∀ (l : List (κ × β)) (v : β), lookupKey k l = some v →
      ((updateKey k f l).map fun p => g p.2).sum = ((l.map fun p => g p.2).sum) - g v + g (f v) := by
  intro l
  induction l with
  | nil => intro v h; simp [lookupKey] at h
  | cons hd tl ih =>
    intro v h
    obtain ⟨a, b⟩ := hd
    by_cases ha : a = k
    · subst ha
      simp [lookupKey] at h
      subst h
      simp [updateKey]
      ring
    · simp [lookupKey, ha] at h
      simp [updateKey, ha, ih v h]
      ring

theorem lookupKey_append_self {κ β : Type} [DecidableEq κ] (k : κ) (x : β) :
    ∀ l : List (κ × β), lookupKey k l = none → lookupKey k (l ++ [(k, x)]) = some x := by
  intro l
  induction l with
  | nil => intro _; simp [lookupKey]
  | cons hd tl ih =>
    intro h
    obtain ⟨a, b⟩ := hd
    by_cases ha : a = k
    · subst ha; simp [lookupKey] at h
    · simp [lookupKey, ha] at h ⊢
      exact ih h

/-! ### C1 — the periodic rebalance task -/

/-- C1 (amended): the coordinator's periodic rebalance task
(`refresh`) unconditionally resets `used` to zero for every profile and
sets EVERY node's per-profile allocation to zero — it performs no
equal-share redistribution, consults no online/offline status, and is
not a no-op in any case. -/
theorem refresh_zeroes_everything (qm : central.QuotaManager) :
    ∀ pm ∈ (central.refresh qm).profiles,
      pm.2.usedQuota = 0 ∧ ∀ nq ∈ pm.2.nodeQuotas, nq.2.allocated = 0 := by
  intro pm hpm
  simp only [central.refresh, List.mem_map] at hpm
  obtain ⟨p, _, rfl⟩ := hpm
  refine ⟨rfl, ?_⟩
  intro nq hnq
  simp only [List.mem_map] at hnq
  obtain ⟨q, _, rfl⟩ := hnq
  rfl

/-- A one-profile, one-node coordinator state: profile 1 has
`total_quota = 10` and its only node "n1" holds `allocated = 3`. -/
def qmC1 : central.QuotaManager := ⟨[(1, ⟨1, 10, 3, [("n1", ⟨3, 0⟩)]⟩)], 5⟩

/-- C1 counterexample: after `refresh` on `qmC1`, node "n1" (the only
node, hence the only candidate online node, making `online_count = 1`)
holds `allocated = 0`, not the equal share `floor(10 / 1) · 1 = 10`
the claim requires; the claim is false on this input. -/
theorem refresh_not_equal_share :
    (central.refresh qmC1).profiles = [(1, ⟨1, 10, 0, [("n1", ⟨0, 0⟩)]⟩)] ∧
      ((10 : Int) / 1) * 1 = 10 ∧ (0 : Int) ≠ 10 := by
  refine ⟨by decide, by decide, by decide⟩

/-- C1 witness: the amended theorem applied to the concrete state
`qmC1` and the single profile that `refresh` produces from it. -/
theorem refresh_zeroes_everything_witness :
    ((1 : Int), (⟨1, 10, 0, [("n1", ⟨0, 0⟩)]⟩ : central.ProfileManager)).2.usedQuota = 0 ∧
      ∀ nq ∈ ((1 : Int), (⟨1, 10, 0, [("n1", ⟨0, 0⟩)]⟩ : central.ProfileManager)).2.nodeQuotas,
        nq.2.allocated = 0 :=
  refresh_zeroes_everything qmC1 (1, ⟨1, 10, 0, [("n1", ⟨0, 0⟩)]⟩) (by decide)

/-! ### C2 — coordinator-side rate control -/

theorem checkOne_rateLimited_false (nodeID : String) (now : Int) (pq : common.ProfileQuota)
    (qm : central.QuotaManager) : (central.checkOne nodeID now pq qm).1.RateLimited = false := by
  unfold central.checkOne
  cases h : lookupKey pq.ProfileID qm.profiles <;> simp [h]

theorem processQuotas_rateLimited_false (nodeID : String) (now : Int) :
    ∀ (entries : List common.ProfileQuota) (qm : central.QuotaManager),
      ∀ r ∈ (central.processQuotas nodeID now entries qm).1, r.RateLimited = false := by
  intro entries
  induction entries with
  | nil => intro qm r hr; simp [central.processQuotas] at hr
  | cons pq rest ih =>
    intro qm r hr
    simp only [central.processQuotas, List.mem_cons] at hr
    rcases hr with h | h
    · exact h ▸ checkOne_rateLimited_false nodeID now pq qm
    · exact ih _ r h

/-- C2 (amended): the coordinator applies NO rate-control method in
`CheckQuota`: the central profile configuration carries no
`rate_control_method` field, no token-bucket or fixed-window state is
consulted, every response entry is emitted with `rate_limited = false`,
and quota accounting proceeds for every known profile regardless of any
method a profile might be configured with elsewhere. -/
theorem CheckQuota_never_rate_limited (req : common.QuotaRequest) (now : Int)
    (qm : central.QuotaManager) :
    ∀ r ∈ (central.CheckQuota req now qm).1.Quotas, r.RateLimited = false := by
  intro r hr
  exact processQuotas_rateLimited_false req.NodeID now req.Quotas qm r hr

/-- A coordinator state with one profile (id 1, `total_quota = 10`,
`used = 0`) and a request for 5 units of it — per the claim, a profile
whose configured fixed-window method has `rate_limit = 0` must be
rejected with `{granted 0, rate_limited true}` and no mutation. -/
def qmC2 : central.QuotaManager := ⟨[(1, ⟨1, 10, 0, []⟩)], 5⟩

/-- The request used for the C2 counterexample and witness. -/
def reqC2 : common.QuotaRequest := ⟨"n1", "r1", [⟨1, 5⟩], 0⟩

/-- C2 counterexample: on `qmC2`/`reqC2` the code answers
`{granted 5, required 5, rate_limited false}` and mutates `used` to 5 —
not the `{granted 0, required 5, rate_limited true}` with `used`
untouched that the claim requires for a profile whose configured
rate-control method rejects (e.g. fixed-window with `rate_limit = 0`,
where `request_count ≥ rate_limit` always holds). -/
theorem CheckQuota_ignores_rate_method :
    (central.CheckQuota reqC2 0 qmC2).1.Quotas = [⟨1, 5, 5, false⟩] ∧
      (lookupKey 1 (central.CheckQuota reqC2 0 qmC2).2.profiles).map
        (fun m => m.usedQuota) = some 5 ∧
      (⟨1, 5, 5, false⟩ : common.ProfileQuotaResponse) ≠ ⟨1, 0, 5, true⟩ := by
  refine ⟨by decide, by decide, by decide⟩

/-- C2 witness: the amended theorem applied at the concrete request
`reqC2` on the state `qmC2`. -/
theorem CheckQuota_never_rate_limited_witness :
    (⟨1, 5, 5, false⟩ : common.ProfileQuotaResponse).RateLimited = false :=
  CheckQuota_never_rate_limited reqC2 0 qmC2 ⟨1, 5, 5, false⟩ (by decide)

/-! ### C3 — request validation -/

/-- The refresh-only request the node's own `refreshQuotas` builds:
non-empty `node_id`, one quota entry, `required = 0`. -/
def reqC3 : common.QuotaRequest := ⟨"node-1", "r1", [⟨1, 0⟩], 0⟩

/-- C3 (code bug): `reqC3` satisfies every validity condition the claim
(and the spec) states — `node_id` non-empty, `quotas` non-empty, every
`required ≥ 0` — yet `validateQuotaRequest` rejects it with
"required quota must be positive" (surfaced as HTTP 400), because the
code tests `q.Required <= 0` instead of `< 0`. The node's own
refresh-only requests carry `required = 0` and are therefore always
rejected. -/
theorem validate_rejects_required_zero :
    central.validateQuotaRequest reqC3 = some "required quota must be positive" ∧
      reqC3.NodeID ≠ "" ∧ reqC3.Quotas.length ≠ 0 ∧
      reqC3.Quotas.all (fun q => decide (0 ≤ q.Required)) = true := by
  refine ⟨by decide, by decide, by decide, by decide⟩

/-! ### C9 — node HealthCheck -/

/-- C9: `HealthCheck` fails exactly when no profiles are configured or
some profile's `last_refresh` is older than twice the refresh interval;
otherwise it succeeds. -/
theorem HealthCheck_fails_iff (now : Int) (n : application.Node) :
    (application.HealthCheck now n).isSome = true ↔
      (n.localQuotas = [] ∨
        ∃ q ∈ n.localQuotas, n.refreshInterval * 2 < now - q.2.lastRefresh) := by
  unfold application.HealthCheck
  by_cases h : n.localQuotas.length = 0
  · simp [h, List.length_eq_zero.mp h]
  · have hne : n.localQuotas ≠ [] := by
      intro hnil
      exact h (by simp [hnil])
    simp only [if_neg h]
    cases hf : n.localQuotas.find? (fun q => decide (n.refreshInterval * 2 < now - q.2.lastRefresh)) with
    | some q =>
      simp only [Option.isSome_some, true_iff]
      right
      refine ⟨q, List.mem_of_find?_eq_some hf, ?_⟩
      have := List.find?_some hf
      simpa using this
    | none =>
      simp only [Option.isSome_none, Bool.false_eq_true, false_iff]
      push_neg
      refine ⟨hne, ?_⟩
      intro q hq
      have hq' := List.find?_eq_none.mp hf q hq
      exact le_of_not_lt (by simpa using hq')

/-! ### C10 — HandleRequest with no named profiles -/

/-- C10: a `HandleRequest` whose request names no profiles always
returns `{request id, StatusOK}` with no error and leaves the node's
state — every profile's `allocated` and `used` — unchanged, whatever
the node's local quota map is (including empty). -/
theorem HandleRequest_empty_quotas (rid nid : String) (n : application.Node) :
    application.HandleRequest ⟨rid, nid, []⟩ n = (.ok ⟨rid, .StatusOK⟩, n) := rfl

/-! ### C4 — node-side refresh replaces `allocated` but keeps `used` -/

theorem refreshFold_lookup_nomatch (now : Int) (pid : Int) :
    ∀ (entries : List common.ProfileQuotaResponse) (lqs : List (Int × application.LocalQuota)),
      entries.filter (fun r => decide (r.ProfileID = pid)) = [] →
      lookupKey pid (entries.foldl
        (fun acc pr => updateKey pr.ProfileID
          (fun q => { q with allocated := pr.Granted, lastRefresh := now }) acc) lqs)
        = lookupKey pid lqs := by
  intro entries
  induction entries with
  | nil => intro lqs _; rfl
  | cons e rest ih =>
    intro lqs hfil
    rw [List.filter_cons] at hfil
    by_cases he : e.ProfileID = pid
    · simp [he] at hfil
    · simp only [decide_eq_true_eq, if_neg he] at hfil
      simp only [List.foldl_cons]
      rw [ih _ hfil, lookupKey_updateKey_ne _ he]

theorem refreshFold_lookup_single (now : Int) (pid : Int) :
    ∀ (entries : List common.ProfileQuotaResponse) (lqs : List (Int × application.LocalQuota))
      (lq : application.LocalQuota) (pr : common.ProfileQuotaResponse),
      entries.filter (fun r => decide (r.ProfileID = pid)) = [pr] →
      lookupKey pid lqs = some lq →
      lookupKey pid (entries.foldl
        (fun acc pr => updateKey pr.ProfileID
          (fun q => { q with allocated := pr.Granted, lastRefresh := now }) acc) lqs)
        = some ⟨pr.Granted, lq.used, now, lq.rateLimiterAllow⟩ := by
  intro entries
  induction entries with
  | nil => intro lqs lq pr hfil _; simp at hfil
  | cons e rest ih =>
    intro lqs lq pr hfil hlq
    rw [List.filter_cons] at hfil
    by_cases he : e.ProfileID = pid
    · simp only [decide_eq_true_eq, if_pos he] at hfil
      have hepr : e = pr := (List.cons_eq_cons.mp hfil).1
      have hrest : rest.filter (fun r => decide (r.ProfileID = pid)) = [] :=
        (List.cons_eq_cons.mp hfil).2
      simp only [List.foldl_cons]
      rw [refreshFold_lookup_nomatch now pid rest _ hrest]
      subst he
      rw [lookupKey_updateKey_self _ _ _ _ hlq, hepr]
    · simp only [decide_eq_true_eq, if_neg he] at hfil
      simp only [List.foldl_cons]
      have hlq' : lookupKey pid (updateKey e.ProfileID
          (fun q => { q with allocated := e.Granted, lastRefresh := now }) lqs) = some lq := by
        rw [lookupKey_updateKey_ne _ he]; exact hlq
      exact ih _ lq pr hfil hlq'

/-- C4 (amended): when the node's `refreshQuotas` succeeds and the
response names a locally-known profile (once), the refresh replaces
that profile's `allocated` with the returned `granted` and sets
`last_refresh := now`, but the profile's local `used` is UNCHANGED from
before the refresh (it is not reset to zero). -/
theorem refreshQuotas_used_unchanged (call : Nat → Option common.QuotaResponse) (now : Int)
    (n : application.Node) (resp : common.QuotaResponse) (pid : Int)
    (lq : application.LocalQuota) (pr : common.ProfileQuotaResponse)
    (hcall : (application.retryLoop call n.maxRetries).1 = some resp)
    (hfil : resp.Quotas.filter (fun r => decide (r.ProfileID = pid)) = [pr])
    (hlq : lookupKey pid n.localQuotas = some lq) :
    lookupKey pid (application.refreshQuotas call now n).localQuotas
      = some ⟨pr.Granted, lq.used, now, lq.rateLimiterAllow⟩ := by
  unfold application.refreshQuotas
  rw [hcall]
  exact refreshFold_lookup_single now pid resp.Quotas n.localQuotas lq pr hfil hlq

/-- A node holding profile 1 with `allocated = 10`, `used = 5`. -/
def nodeC4 : application.Node := ⟨"n1", [(1, ⟨10, 5, 0, true⟩)], 5, 3⟩

/-- A successful coordinator response granting 7 units for profile 1. -/
def respC4 : common.QuotaResponse := ⟨"r1", [⟨1, 7, 0, false⟩], 0⟩

/-- C4 counterexample: after a successful `refreshQuotas` on `nodeC4`
(the first attempt returns `respC4`), profile 1 holds
`allocated = 7`, `last_refresh = 100` — and `used = 5`, which is not
zero, so the claim that `used` is zero after a refresh is false on this
input. -/
theorem refreshQuotas_keeps_used_nonzero :
    lookupKey 1 (application.refreshQuotas (fun _ => some respC4) 100 nodeC4).localQuotas
      = some ⟨7, 5, 100, true⟩ ∧ (5 : Int) ≠ 0 := by
  refine ⟨by decide, by decide⟩

/-- C4 witness: the amended theorem applied at the concrete node
`nodeC4` with the concrete successful response `respC4`. -/
theorem refreshQuotas_used_unchanged_witness :
    lookupKey 1 (application.refreshQuotas (fun _ => some respC4) 100 nodeC4).localQuotas
      = some ⟨7, 5, 100, true⟩ :=
  refreshQuotas_used_unchanged (fun _ => some respC4) 100 nodeC4 respC4 1
    ⟨10, 5, 0, true⟩ ⟨1, 7, 0, false⟩ (by decide) (by decide) (by decide)

/-! ### C8 — refresh retry bound and failure leaves state untouched -/

theorem retryFrom_count_le (call : Nat → Option common.QuotaResponse) :
    ∀ (fuel i : Nat), (application.retryFrom call i fuel).2 ≤ fuel := by
  intro fuel
  induction fuel with
  | zero => intro i; simp [application.retryFrom]
  | succ f ih =>
    intro i
    unfold application.retryFrom
    cases call i with
    | some r => simp
    | none => simpa using Nat.succ_le_succ (ih (i + 1))

theorem retryFrom_all_fail (call : Nat → Option common.QuotaResponse) :
    ∀ (fuel i : Nat), (∀ j, j < fuel → call (i + j) = none) →
      (application.retryFrom call i fuel).1 = none := by
  intro fuel
  induction fuel with
  | zero => intro i _; rfl
  | succ f ih =>
    intro i h
    unfold application.retryFrom
    have h0 : call i = none := by simpa using h 0 (Nat.succ_pos f)
    rw [h0]
    exact ih (i + 1) (fun j hj => by
      have := h (j + 1) (Nat.succ_lt_succ hj)
      simpa [Nat.add_assoc, Nat.add_comm 1 j] using this)

/-- C8: the node's `refreshQuotas` performs at most `max_retries`
coordinator calls, and when every attempt fails it returns the node
state unchanged — every profile's `allocated`, `used` and
`last_refresh` are exactly as before. -/
theorem refreshQuotas_retry_bound (call : Nat → Option common.QuotaResponse) (now : Int)
    (n : application.Node) :
    (application.retryLoop call n.maxRetries).2 ≤ n.maxRetries ∧
      ((∀ i, i < n.maxRetries → call i = none) →
        application.refreshQuotas call now n = n) := by
  constructor
  · exact retryFrom_count_le call n.maxRetries 0
  · intro h
    have h1 : (application.retryLoop call n.maxRetries).1 = none :=
      retryFrom_all_fail call n.maxRetries 0 (fun j hj => by simpa using h j hj)
    unfold application.refreshQuotas
    rw [h1]
    by_cases hm : n.maxRetries = 0
    · rw [if_pos hm]
      rfl
    · simp [hm]

/-- A node used for the C8 witness. -/
def nodeC8 : application.Node := ⟨"n2", [(1, ⟨10, 5, 0, true⟩)], 5, 3⟩

/-- C8 witness: with a coordinator that fails every attempt, a refresh
on `nodeC8` (max_retries = 3) makes at most 3 attempts and leaves the
node unchanged. -/
theorem refreshQuotas_retry_bound_witness :
    (application.retryLoop (fun _ => none) nodeC8.maxRetries).2 ≤ nodeC8.maxRetries ∧
      application.refreshQuotas (fun _ => none) 100 nodeC8 = nodeC8 :=
  ⟨(refreshQuotas_retry_bound (fun _ => none) 100 nodeC8).1,
    (refreshQuotas_retry_bound (fun _ => none) 100 nodeC8).2 (fun _ _ => rfl)⟩

/-! ### C7 — HandleRequest is all-or-nothing -/

/-- Sum of the `Required` amounts that a request's entry list names for
one profile id (for a Go map there is at most one such entry). -/
def reqSum (pid : Int) (entries : List (Int × common.ProfileQuota)) : Int :=
  ((entries.filter fun e => decide (e.1 = pid)).map fun e => e.2.Required).sum

/-- The cause each HandleRequest failure reports: profile-unknown names
a requested profile absent locally; rate-limited means some requested
profile's limiter rejected; quota-exceeded means some requested profile
lacks `allocated − used ≥ required`. -/
def failCause (lqs : List (Int × application.LocalQuota))
    (entries : List (Int × common.ProfileQuota)) (e : application.HandleErr) : Prop :=
  (∃ pid q, (pid, q) ∈ entries ∧ lookupKey pid lqs = none ∧ e = .profileUnknown pid) ∨
  (e = .rateLimited ∧ ∃ pid q lq, (pid, q) ∈ entries ∧ lookupKey pid lqs = some lq ∧
    lq.rateLimiterAllow = false) ∨
  (e = .quotaExceeded ∧ ∃ pid q lq, (pid, q) ∈ entries ∧ lookupKey pid lqs = some lq ∧
    lq.allocated - lq.used < q.Required)

theorem checkAll_some_cause (lqs : List (Int × application.LocalQuota)) :
    ∀ (entries : List (Int × common.ProfileQuota)) (e : application.HandleErr),
      application.checkAll lqs entries = some e → failCause lqs entries e := by
  intro entries
  induction entries with
  | nil => intro e h; simp [application.checkAll] at h
  | cons hd rest ih =>
    intro e h
    obtain ⟨pid, q⟩ := hd
    unfold application.checkAll at h
    cases hl : lookupKey pid lqs with
    | none =>
      rw [hl] at h
      injection h with h
      subst h
      exact Or.inl ⟨pid, q, List.mem_cons_self _ _, hl, rfl⟩
    | some lq =>
      rw [hl] at h
      replace h : (if lq.rateLimiterAllow = false then some application.HandleErr.rateLimited
          else if lq.allocated - lq.used < q.Required then some application.HandleErr.quotaExceeded
          else application.checkAll lqs rest) = some e := h
      by_cases hallow : lq.rateLimiterAllow = false
      · rw [if_pos hallow] at h
        injection h with h
        subst h
        exact Or.inr (Or.inl ⟨rfl, pid, q, lq, List.mem_cons_self _ _, hl, hallow⟩)
      · rw [if_neg hallow] at h
        by_cases hq : lq.allocated - lq.used < q.Required
        · rw [if_pos hq] at h
          injection h with h
          subst h
          exact Or.inr (Or.inr ⟨rfl, pid, q, lq, List.mem_cons_self _ _, hl, hq⟩)
        · rw [if_neg hq] at h
          rcases ih e h with ⟨p, q', hmem, hn, he⟩ | ⟨he, p, q', lq', hmem, hs, hr⟩ |
            ⟨he, p, q', lq', hmem, hs, hr⟩
          · exact Or.inl ⟨p, q', List.mem_cons_of_mem _ hmem, hn, he⟩
          · exact Or.inr (Or.inl ⟨he, p, q', lq', List.mem_cons_of_mem _ hmem, hs, hr⟩)
          · exact Or.inr (Or.inr ⟨he, p, q', lq', List.mem_cons_of_mem _ hmem, hs, hr⟩)

theorem lookupKey_debitAll (pid : Int) :
    ∀ (entries : List (Int × common.ProfileQuota)) (lqs : List (Int × application.LocalQuota))
      (lq : application.LocalQuota), lookupKey pid lqs = some lq →
      lookupKey pid (application.debitAll entries lqs)
        = some { lq with used := lq.used + reqSum pid entries } := by
  intro entries
  induction entries with
  | nil =>
    intro lqs lq hlq
    simpa [application.debitAll, reqSum] using hlq
  | cons e rest ih =>
    intro lqs lq hlq
    have hstep : application.debitAll (e :: rest) lqs
        = application.debitAll rest
          (updateKey e.1 (fun q => { q with used := q.used + e.2.Required }) lqs) := rfl
    rw [hstep]
    by_cases he : e.1 = pid
    · have hacc : lookupKey pid
          (updateKey e.1 (fun q => { q with used := q.used + e.2.Required }) lqs)
          = some { lq with used := lq.used + e.2.Required } := by
        rw [he]
        exact lookupKey_updateKey_self pid _ lqs lq hlq
      rw [ih _ _ hacc]
      have hsum : reqSum pid (e :: rest) = e.2.Required + reqSum pid rest := by
        simp [reqSum, List.filter_cons, he]
      rw [hsum]
      simp only [Option.some.injEq, application.LocalQuota.mk.injEq, and_true, true_and]
      ring
    · have hacc : lookupKey pid
          (updateKey e.1 (fun q => { q with used := q.used + e.2.Required }) lqs)
          = some lq := by
        rw [lookupKey_updateKey_ne _ he]
        exact hlq
      rw [ih _ _ hacc]
      simp [reqSum, List.filter_cons, he]

/-- C7: every `HandleRequest` either fails — with profile-unknown /
rate-limited / quota-exceeded, each tied to the condition that causes
it — and then returns the node state completely unchanged (no `used`
mutated), or every check passes and it returns `{request id, StatusOK}`
after debiting `used += required` for EVERY named profile (and touching
nothing else: profiles the request does not name keep `used` unchanged,
since their `reqSum` is zero). -/
theorem HandleRequest_all_or_nothing (req : common.Request) (n : application.Node) :
    (∀ e, (application.HandleRequest req n).1 = .error e →
        (application.HandleRequest req n).2 = n ∧ failCause n.localQuotas req.Quotas e) ∧
    (∀ resp, (application.HandleRequest req n).1 = .ok resp →
        resp = ⟨req.RequestID, .StatusOK⟩ ∧
        ∀ pid lq, lookupKey pid n.localQuotas = some lq →
          lookupKey pid (application.HandleRequest req n).2.localQuotas
            = some { lq with used := lq.used + reqSum pid req.Quotas }) := by
  cases h : application.checkAll n.localQuotas req.Quotas with
  | some e0 =>
    constructor
    · intro e he
      simp only [application.HandleRequest, h, Except.error.injEq] at he ⊢
      subst he
      exact ⟨trivial, checkAll_some_cause n.localQuotas req.Quotas e0 h⟩
    · intro resp hr
      simp only [application.HandleRequest, h] at hr
      exact absurd hr (by simp)
  | none =>
    constructor
    · intro e he
      simp only [application.HandleRequest, h] at he
      exact absurd he (by simp)
    · intro resp hr
      simp only [application.HandleRequest, h, Except.ok.injEq] at hr ⊢
      refine ⟨hr.symm, ?_⟩
      intro pid lq hlq
      exact lookupKey_debitAll pid req.Quotas n.localQuotas lq hlq

/-- A two-profile node for the C7 witness. -/
def nodeC7 : application.Node := ⟨"n1", [(1, ⟨10, 2, 0, true⟩), (2, ⟨5, 0, 0, true⟩)], 5, 3⟩

/-- A request naming both profiles of `nodeC7`, within quota. -/
def reqC7 : common.Request := ⟨"r7", "n1", [(1, ⟨1, 4⟩), (2, ⟨2, 3⟩)]⟩

/-- C7 witness: on `nodeC7`/`reqC7` all checks pass and profile 1's
`used` ends at `2 + reqSum 1 reqC7.Quotas` (= 6), by direct application
of the all-or-nothing theorem. -/
theorem HandleRequest_all_or_nothing_witness :
    lookupKey 1 (application.HandleRequest reqC7 nodeC7).2.localQuotas
      = some ⟨10, 2 + reqSum 1 reqC7.Quotas, 0, true⟩ :=
  ((HandleRequest_all_or_nothing reqC7 nodeC7).2 ⟨"r7", .StatusOK⟩ rfl).2 1
    ⟨10, 2, 0, true⟩ rfl

/-! ### C5 — coordinator invariant: 0 ≤ used ≤ total and used = Σ allocated -/

/-- The coordinator-side profile invariant (the non-negative total is
carried alongside because it is immutable and the claim assumes it). -/
def Inv (pm : central.ProfileManager) : Prop :=
  0 ≤ pm.totalQuota ∧ 0 ≤ pm.usedQuota ∧ pm.usedQuota ≤ pm.totalQuota ∧
    pm.usedQuota = central.allocSum pm.nodeQuotas

theorem lookupKey_some_mem {κ β : Type} [DecidableEq κ] {k : κ} :
    ∀ {l : List (κ × β)} {v : β}, lookupKey k l = some v → (k, v) ∈ l := by
  intro l
  induction l with
  | nil => intro v h; simp [lookupKey] at h
  | cons hd tl ih =>
    intro v h
    obtain ⟨a, b⟩ := hd
    by_cases ha : a = k
    · subst ha
      simp [lookupKey] at h
      subst h
      exact List.mem_cons_self _ _
    · simp [lookupKey, ha] at h
      exact List.mem_cons_of_mem _ (ih h)

theorem allocSum_append_zero (l : List (String × central.NodeQuota)) (nodeID : String) (now : Int) :
    central.allocSum (l ++ [(nodeID, ⟨0, now⟩)]) = central.allocSum l := by
  simp [central.allocSum]

theorem ensureNode_fields (nodeID : String) (now : Int) (mgr : central.ProfileManager) :
    (central.ensureNode nodeID now mgr).totalQuota = mgr.totalQuota ∧
      (central.ensureNode nodeID now mgr).usedQuota = mgr.usedQuota ∧
      central.allocSum (central.ensureNode nodeID now mgr).nodeQuotas
        = central.allocSum mgr.nodeQuotas := by
  unfold central.ensureNode
  cases h : lookupKey nodeID mgr.nodeQuotas with
  | some v => exact ⟨rfl, rfl, rfl⟩
  | none => exact ⟨rfl, rfl, allocSum_append_zero mgr.nodeQuotas nodeID now⟩

theorem ensureNode_inv (nodeID : String) (now : Int) (mgr : central.ProfileManager)
    (h : Inv mgr) : Inv (central.ensureNode nodeID now mgr) := by
  obtain ⟨h1, h2, h3⟩ := ensureNode_fields nodeID now mgr
  exact ⟨h1 ▸ h.1, h2 ▸ h.2.1, by rw [h1, h2]; exact h.2.2.1, by rw [h2, h3]; exact h.2.2.2⟩

theorem ensureNode_lookup_isSome (nodeID : String) (now : Int) (mgr : central.ProfileManager) :
    ∃ v, lookupKey nodeID (central.ensureNode nodeID now mgr).nodeQuotas = some v := by
  unfold central.ensureNode
  cases h : lookupKey nodeID mgr.nodeQuotas with
  | some v => exact ⟨v, h⟩
  | none => exact ⟨⟨0, now⟩, lookupKey_append_self nodeID _ mgr.nodeQuotas h⟩

theorem grantStep_inv (nodeID : String) (now : Int) (required : Int)
    (mgr : central.ProfileManager) (h : Inv mgr)
    (hkey : ∃ v, lookupKey nodeID mgr.nodeQuotas = some v) :
    Inv (central.grantStep nodeID now required mgr).2 := by
  obtain ⟨htot, hused0, husedle, hsum⟩ := h
  obtain ⟨v, hv⟩ := hkey
  unfold central.grantStep
  by_cases hg : 0 < (if mgr.totalQuota - mgr.usedQuota < required
      then mgr.totalQuota - mgr.usedQuota else required)
  · rw [if_pos hg]
    have hgle : (if mgr.totalQuota - mgr.usedQuota < required
        then mgr.totalQuota - mgr.usedQuota else required) ≤ mgr.totalQuota - mgr.usedQuota := by
      split <;> omega
    refine ⟨htot, by dsimp; omega, by dsimp; omega, ?_⟩
    dsimp
    have := sum_map_updateKey (fun nq : central.NodeQuota => nq.allocated) nodeID
      (fun nq => ⟨nq.allocated + (if mgr.totalQuota - mgr.usedQuota < required
        then mgr.totalQuota - mgr.usedQuota else required), now⟩) mgr.nodeQuotas v hv
    unfold central.allocSum
    rw [this]
    unfold central.allocSum at hsum
    dsimp only
    omega
  · rw [if_neg hg]
    exact ⟨htot, hused0, husedle, hsum⟩

theorem checkOne_inv (nodeID : String) (now : Int) (pq : common.ProfileQuota)
    (qm : central.QuotaManager) (h : ∀ pm ∈ qm.profiles, Inv pm.2) :
    ∀ pm ∈ (central.checkOne nodeID now pq qm).2.profiles, Inv pm.2 := by
  intro pm hpm
  unfold central.checkOne at hpm
  cases hl : lookupKey pq.ProfileID qm.profiles with
  | none =>
    rw [hl] at hpm
    exact h pm hpm
  | some mgr =>
    rw [hl] at hpm
    replace hpm : pm ∈ updateKey pq.ProfileID
        (fun _ => (central.grantStep nodeID now pq.Required
          (central.ensureNode nodeID now mgr)).2) qm.profiles := hpm
    rcases mem_updateKey hpm with hmem | ⟨v, hv, hx⟩
    · exact h pm hmem
    · have hveq : v = mgr := by rw [hv] at hl; injection hl
      subst hveq
      subst hx
      have hmgr : Inv v := h (pq.ProfileID, v) (lookupKey_some_mem hv)
      exact grantStep_inv nodeID now pq.Required _ (ensureNode_inv nodeID now v hmgr)
        (ensureNode_lookup_isSome nodeID now v)

theorem processQuotas_inv (nodeID : String) (now : Int) :
    ∀ (entries : List common.ProfileQuota) (qm : central.QuotaManager),
      (∀ pm ∈ qm.profiles, Inv pm.2) →
      ∀ pm ∈ (central.processQuotas nodeID now entries qm).2.profiles, Inv pm.2 := by
  intro entries
  induction entries with
  | nil => intro qm h; exact h
  | cons pq rest ih =>
    intro qm h
    exact ih _ (checkOne_inv nodeID now pq qm h)

theorem allocSum_zeroed (l : List (String × central.NodeQuota)) :
    central.allocSum (l.map fun q => (q.1, { q.2 with allocated := 0 })) = 0 := by
  induction l with
  | nil => rfl
  | cons hd tl ih => simp [central.allocSum] at ih ⊢; exact ih

theorem refresh_inv (qm : central.QuotaManager) (h : ∀ pm ∈ qm.profiles, Inv pm.2) :
    ∀ pm ∈ (central.refresh qm).profiles, Inv pm.2 := by
  intro pm hpm
  simp only [central.refresh, List.mem_map] at hpm
  obtain ⟨p, hp, rfl⟩ := hpm
  have := (h p hp).1
  exact ⟨this, le_refl 0, this, (allocSum_zeroed p.2.nodeQuotas).symm⟩

theorem applyOp_inv (op : central.COp) (qm : central.QuotaManager)
    (h : ∀ pm ∈ qm.profiles, Inv pm.2) :
    ∀ pm ∈ (central.applyOp op qm).profiles, Inv pm.2 := by
  cases op with
  | check req now => exact processQuotas_inv req.NodeID now req.Quotas qm h
  | refreshTick => exact refresh_inv qm h

theorem runOps_inv : ∀ (ops : List central.COp) (qm : central.QuotaManager),
    (∀ pm ∈ qm.profiles, Inv pm.2) →
    ∀ pm ∈ (central.runOps ops qm).profiles, Inv pm.2 := by
  intro ops
  induction ops with
  | nil => intro qm h; exact h
  | cons op rest ih => intro qm h; exact ih _ (applyOp_inv op qm h)

theorem NewQuotaManager_inv (ri : Int) (configs : List (Int × central.ProfileConfig))
    (hcfg : ∀ c ∈ configs, 0 ≤ c.2.TotalQuota) :
    ∀ pm ∈ (central.NewQuotaManager ri configs).profiles, Inv pm.2 := by
  intro pm hpm
  simp only [central.NewQuotaManager, List.mem_map] at hpm
  obtain ⟨c, hc, rfl⟩ := hpm
  exact ⟨hcfg c hc, le_refl 0, hcfg c hc, rfl⟩

/-- C5: starting from a freshly constructed quota manager whose
profiles all have non-negative `total_quota`, after ANY sequence of
CheckQuota calls and periodic-refresh ticks, every profile satisfies
`0 ≤ used ≤ total_quota` and `used = Σ per_node.allocated`. -/
theorem quota_manager_invariant (ri : Int) (configs : List (Int × central.ProfileConfig))
    (ops : List central.COp) (hcfg : ∀ c ∈ configs, 0 ≤ c.2.TotalQuota) :
    ∀ pm ∈ (central.runOps ops (central.NewQuotaManager ri configs)).profiles,
      0 ≤ pm.2.usedQuota ∧ pm.2.usedQuota ≤ pm.2.totalQuota ∧
        pm.2.usedQuota = central.allocSum pm.2.nodeQuotas := by
  intro pm hpm
  have := runOps_inv ops (central.NewQuotaManager ri configs)
    (NewQuotaManager_inv ri configs hcfg) pm hpm
  exact ⟨this.2.1, this.2.2.1, this.2.2.2⟩

/-- Profile configuration for the C5 witness. -/
def configsC5 : List (Int × central.ProfileConfig) := [(1, ⟨10, "p"⟩)]

/-- Operation sequence for the C5 witness: a grant of 4, a refresh
tick, then a grant of 7. -/
def opsC5 : List central.COp :=
  [.check ⟨"n1", "r1", [⟨1, 4⟩], 0⟩ 0, .refreshTick, .check ⟨"n1", "r2", [⟨1, 7⟩], 0⟩ 0]

/-- C5 witness: the invariant theorem applied to the concrete run
`opsC5` from `configsC5`, whose final profile state is
`used = 7 = allocSum [("n1", ⟨7, 0⟩)] ≤ 10`. -/
theorem quota_manager_invariant_witness :
    0 ≤ ((1 : Int), (⟨1, 10, 7, [("n1", ⟨7, 0⟩)]⟩ : central.ProfileManager)).2.usedQuota ∧
      ((1 : Int), (⟨1, 10, 7, [("n1", ⟨7, 0⟩)]⟩ : central.ProfileManager)).2.usedQuota ≤
        ((1 : Int), (⟨1, 10, 7, [("n1", ⟨7, 0⟩)]⟩ : central.ProfileManager)).2.totalQuota ∧
      ((1 : Int), (⟨1, 10, 7, [("n1", ⟨7, 0⟩)]⟩ : central.ProfileManager)).2.usedQuota =
        central.allocSum
          ((1 : Int), (⟨1, 10, 7, [("n1", ⟨7, 0⟩)]⟩ : central.ProfileManager)).2.nodeQuotas :=
  quota_manager_invariant 5 configsC5 opsC5 (by decide)
    (1, ⟨1, 10, 7, [("n1", ⟨7, 0⟩)]⟩) (by decide)

/-! ### C6 — per-entry grants and the per-profile sum bound -/

theorem checkOne_of_lookup_none (nodeID : String) (now : Int) (pq : common.ProfileQuota)
    (qm : central.QuotaManager) (hl : lookupKey pq.ProfileID qm.profiles = none) :
    central.checkOne nodeID now pq qm = (⟨pq.ProfileID, 0, pq.Required, false⟩, qm) := by
  unfold central.checkOne
  rw [hl]

theorem checkOne_fst_some (nodeID : String) (now : Int) (pq : common.ProfileQuota)
    (qm : central.QuotaManager) (mgr : central.ProfileManager)
    (hl : lookupKey pq.ProfileID qm.profiles = some mgr) :
    (central.checkOne nodeID now pq qm).1 =
      ⟨pq.ProfileID,
        (central.grantStep nodeID now pq.Required (central.ensureNode nodeID now mgr)).1,
        pq.Required, false⟩ := by
  unfold central.checkOne
  rw [hl]

theorem checkOne_snd_some (nodeID : String) (now : Int) (pq : common.ProfileQuota)
    (qm : central.QuotaManager) (mgr : central.ProfileManager)
    (hl : lookupKey pq.ProfileID qm.profiles = some mgr) :
    (central.checkOne nodeID now pq qm).2.profiles =
      updateKey pq.ProfileID
        (fun _ => (central.grantStep nodeID now pq.Required
          (central.ensureNode nodeID now mgr)).2) qm.profiles := by
  unfold central.checkOne
  rw [hl]

theorem grantStep_min_eq (required total used : Int) :
    (if total - used < required then total - used else required) = min required (total - used) := by
  rw [min_def]
  split_ifs <;> omega

theorem grantStep_fst (nodeID : String) (now : Int) (required : Int)
    (mgr : central.ProfileManager) :
    (central.grantStep nodeID now required mgr).1
      = min required (mgr.totalQuota - mgr.usedQuota) := by
  unfold central.grantStep
  dsimp only
  rw [grantStep_min_eq]
  split_ifs <;> rfl

theorem grantStep_used (nodeID : String) (now : Int) (required : Int)
    (mgr : central.ProfileManager) :
    (central.grantStep nodeID now required mgr).2.usedQuota
      = (if 0 < min required (mgr.totalQuota - mgr.usedQuota)
          then mgr.usedQuota + min required (mgr.totalQuota - mgr.usedQuota)
          else mgr.usedQuota) := by
  unfold central.grantStep
  dsimp only
  rw [grantStep_min_eq]
  split_ifs <;> rfl

theorem grantStep_total (nodeID : String) (now : Int) (required : Int)
    (mgr : central.ProfileManager) :
    (central.grantStep nodeID now required mgr).2.totalQuota = mgr.totalQuota := by
  unfold central.grantStep
  dsimp only
  split_ifs <;> rfl

theorem checkOne_lookup_ne (nodeID : String) (now : Int) (pq : common.ProfileQuota)
    (qm : central.QuotaManager) (pid : Int) (hne : pq.ProfileID ≠ pid) :
    lookupKey pid (central.checkOne nodeID now pq qm).2.profiles
      = lookupKey pid qm.profiles := by
  cases hl : lookupKey pq.ProfileID qm.profiles with
  | none => rw [checkOne_of_lookup_none nodeID now pq qm hl]
  | some mgr =>
    rw [checkOne_snd_some nodeID now pq qm mgr hl]
    exact lookupKey_updateKey_ne _ hne qm.profiles

/-- The filtered grant list of a `processQuotas` run for one profile
equals the specification's grant ladder (`grantRun`), and the profile's
final `used` is the ladder's final `used`. -/
theorem processQuotas_profile (nodeID : String) (now : Int) (pid : Int) :
    ∀ (entries : List common.ProfileQuota) (qm : central.QuotaManager)
      (mgr : central.ProfileManager),
      lookupKey pid qm.profiles = some mgr →
      mgr.usedQuota ≤ mgr.totalQuota →
      ∃ mgr', lookupKey pid (central.processQuotas nodeID now entries qm).2.profiles = some mgr' ∧
        mgr'.totalQuota = mgr.totalQuota ∧
        (((central.processQuotas nodeID now entries qm).1.filter
            (fun r => decide (r.ProfileID = pid))).map (fun r => r.Granted))
          = (central.grantRun mgr.totalQuota mgr.usedQuota
              ((entries.filter (fun pq => decide (pq.ProfileID = pid))).map
                (fun pq => pq.Required))).1 ∧
        mgr'.usedQuota = (central.grantRun mgr.totalQuota mgr.usedQuota
              ((entries.filter (fun pq => decide (pq.ProfileID = pid))).map
                (fun pq => pq.Required))).2 := by
  intro entries
  induction entries with
  | nil =>
    intro qm mgr hmgr _
    exact ⟨mgr, hmgr, rfl, rfl, rfl⟩
  | cons pq rest ih =>
    intro qm mgr hmgr hle
    have hproc : central.processQuotas nodeID now (pq :: rest) qm =
        ((central.checkOne nodeID now pq qm).1 ::
          (central.processQuotas nodeID now rest (central.checkOne nodeID now pq qm).2).1,
         (central.processQuotas nodeID now rest (central.checkOne nodeID now pq qm).2).2) := rfl
    by_cases hpq : pq.ProfileID = pid
    · have hl : lookupKey pq.ProfileID qm.profiles = some mgr := by rw [hpq]; exact hmgr
      have hfst := checkOne_fst_some nodeID now pq qm mgr hl
      have hsnd := checkOne_snd_some nodeID now pq qm mgr hl
      have hens := ensureNode_fields nodeID now mgr
      set mgr₁ := central.ensureNode nodeID now mgr with hmgr₁
      set g := (central.grantStep nodeID now pq.Required mgr₁).1 with hg
      set mgr₂ := (central.grantStep nodeID now pq.Required mgr₁).2 with hmgr₂
      have hgval : g = min pq.Required (mgr.totalQuota - mgr.usedQuota) := by
        rw [hg, grantStep_fst, hens.1, hens.2.1]
      have hused₂ : mgr₂.usedQuota
          = (if 0 < g then mgr.usedQuota + g else mgr.usedQuota) := by
        rw [hmgr₂, grantStep_used, hens.1, hens.2.1, ← hgval]
      have htot₂ : mgr₂.totalQuota = mgr.totalQuota := by
        rw [hmgr₂, grantStep_total, hens.1]
      have hle₂ : mgr₂.usedQuota ≤ mgr₂.totalQuota := by
        have hmr : min pq.Required (mgr.totalQuota - mgr.usedQuota)
            ≤ mgr.totalQuota - mgr.usedQuota := min_le_right _ _
        rw [hused₂, htot₂]
        split_ifs with h0
        · omega
        · exact hle
      have hlook₂ : lookupKey pid (central.checkOne nodeID now pq qm).2.profiles
          = some mgr₂ := by
        rw [hsnd, ← hpq]
        exact lookupKey_updateKey_self pq.ProfileID _ qm.profiles mgr hl
      obtain ⟨mgr', hm1, hm2, hm3, hm4⟩ :=
        ih (central.checkOne nodeID now pq qm).2 mgr₂ hlook₂ hle₂
      have hgrun : central.grantRun mgr.totalQuota mgr.usedQuota
          (pq.Required :: (rest.filter (fun pq => decide (pq.ProfileID = pid))).map
            (fun pq => pq.Required))
          = (g :: (central.grantRun mgr.totalQuota
              (if 0 < g then mgr.usedQuota + g else mgr.usedQuota)
              ((rest.filter (fun pq => decide (pq.ProfileID = pid))).map
                (fun pq => pq.Required))).1,
             (central.grantRun mgr.totalQuota
              (if 0 < g then mgr.usedQuota + g else mgr.usedQuota)
              ((rest.filter (fun pq => decide (pq.ProfileID = pid))).map
                (fun pq => pq.Required))).2) := by
        conv_lhs => unfold central.grantRun
        rw [← hgval]
      have hfil : (pq :: rest).filter (fun pq => decide (pq.ProfileID = pid))
          = pq :: rest.filter (fun pq => decide (pq.ProfileID = pid)) :=
        List.filter_cons_of_pos (by simp [hpq])
      refine ⟨mgr', ?_, by rw [hm2, htot₂], ?_, ?_⟩
      · rw [hproc]
        exact hm1
      · rw [hproc]
        dsimp only
        rw [List.filter_cons_of_pos (by rw [hfst]; simp [hpq]), List.map_cons, hfst]
        rw [hfil, List.map_cons, hgrun]
        dsimp only
        rw [hm3, htot₂, hused₂]
      · rw [hfil, List.map_cons, hgrun]
        dsimp only
        rw [hm4, htot₂, hused₂]
    · have hlook : lookupKey pid (central.checkOne nodeID now pq qm).2.profiles
          = some mgr := by
        rw [checkOne_lookup_ne nodeID now pq qm pid hpq]
        exact hmgr
      obtain ⟨mgr', hm1, hm2, hm3, hm4⟩ :=
        ih (central.checkOne nodeID now pq qm).2 mgr hlook hle
      have hhd : (central.checkOne nodeID now pq qm).1.ProfileID = pq.ProfileID := by
        cases hl : lookupKey pq.ProfileID qm.profiles with
        | none => rw [checkOne_of_lookup_none nodeID now pq qm hl]
        | some m => rw [checkOne_fst_some nodeID now pq qm m hl]
      have hfil : (pq :: rest).filter (fun pq => decide (pq.ProfileID = pid))
          = rest.filter (fun pq => decide (pq.ProfileID = pid)) :=
        List.filter_cons_of_neg (by simp [hpq])
      refine ⟨mgr', ?_, hm2, ?_, ?_⟩
      · rw [hproc]
        exact hm1
      · rw [hproc]
        dsimp only
        rw [List.filter_cons_of_neg (by rw [hhd]; simp [hpq]), hfil]
        exact hm3
      · rw [hfil]
        exact hm4

/-- The spec-side grant ladder's bookkeeping: with non-negative
requireds and `used ≤ total`, the grants sum to the ladder's final
`used` minus the starting `used`, which never exceeds `total`. -/
theorem grantRun_bounds (total : Int) :
    ∀ (rs : List Int) (u : Int), (∀ r ∈ rs, 0 ≤ r) → u ≤ total →
      (central.grantRun total u rs).1.sum = (central.grantRun total u rs).2 - u ∧
        u ≤ (central.grantRun total u rs).2 ∧ (central.grantRun total u rs).2 ≤ total := by
  intro rs
  induction rs with
  | nil =>
    intro u _ hu
    exact ⟨by simp [central.grantRun], le_refl u, hu⟩
  | cons r rest ih =>
    intro u hr hu
    have hr0 : 0 ≤ r := hr r (List.mem_cons_self _ _)
    have hg0 : 0 ≤ min r (total - u) := le_min hr0 (by omega)
    have hgle : min r (total - u) ≤ total - u := min_le_right _ _
    have hu' : (if 0 < min r (total - u) then u + min r (total - u) else u) ≤ total := by
      split_ifs <;> omega
    obtain ⟨ih1, ih2, ih3⟩ := ih (if 0 < min r (total - u) then u + min r (total - u) else u)
      (fun x hx => hr x (List.mem_cons_of_mem _ hx)) hu'
    unfold central.grantRun
    dsimp only
    refine ⟨?_, ?_, ih3⟩
    · rw [List.sum_cons, ih1]
      split_ifs at ih2 ⊢ <;> omega
    · split_ifs at ih2 ⊢ <;> omega

/-- C6: for a request whose entries all carry `required ≥ 0`, and a
known profile with `used ≤ total_quota`, the `CheckQuota` response
entries for that profile carry exactly the spec's per-iteration grants
`min(required, total_quota − used-at-that-iteration)` (the `grantRun`
ladder), and their sum never exceeds `total_quota − used_before`, even
when the profile appears in several entries. -/
theorem CheckQuota_grant_ladder (req : common.QuotaRequest) (now : Int)
    (qm : central.QuotaManager) (pid : Int) (mgr : central.ProfileManager)
    (hmgr : lookupKey pid qm.profiles = some mgr)
    (hle : mgr.usedQuota ≤ mgr.totalQuota)
    (hreq : ∀ pq ∈ req.Quotas, 0 ≤ pq.Required) :
    (((central.CheckQuota req now qm).1.Quotas.filter
        (fun r => decide (r.ProfileID = pid))).map (fun r => r.Granted))
      = (central.grantRun mgr.totalQuota mgr.usedQuota
          ((req.Quotas.filter (fun pq => decide (pq.ProfileID = pid))).map
            (fun pq => pq.Required))).1 ∧
    (((central.CheckQuota req now qm).1.Quotas.filter
        (fun r => decide (r.ProfileID = pid))).map (fun r => r.Granted)).sum
      ≤ mgr.totalQuota - mgr.usedQuota := by
  obtain ⟨mgr', _, _, hm3, _⟩ :=
    processQuotas_profile req.NodeID now pid req.Quotas qm mgr hmgr hle
  have hquotas : (central.CheckQuota req now qm).1.Quotas
      = (central.processQuotas req.NodeID now req.Quotas qm).1 := rfl
  have hpos : ∀ r ∈ ((req.Quotas.filter (fun pq => decide (pq.ProfileID = pid))).map
      (fun pq => pq.Required)), 0 ≤ r := by
    intro r hrm
    rw [List.mem_map] at hrm
    obtain ⟨pq, hpq, rfl⟩ := hrm
    exact hreq pq (List.mem_of_mem_filter hpq)
  obtain ⟨hb1, hb2, hb3⟩ := grantRun_bounds mgr.totalQuota
    ((req.Quotas.filter (fun pq => decide (pq.ProfileID = pid))).map
      (fun pq => pq.Required)) mgr.usedQuota hpos hle
  constructor
  · rw [hquotas]
    exact hm3
  · rw [hquotas, hm3, hb1]
    omega

/-- Coordinator state for the C6 witness: one profile with
`total_quota = 10`, `used = 0`. -/
def qmC6 : central.QuotaManager := ⟨[(1, ⟨1, 10, 0, []⟩)], 5⟩

/-- Request for the C6 witness: the same profile appears in three
entries of 4 units each; the code grants 4, 4, then 2. -/
def reqC6 : common.QuotaRequest := ⟨"n1", "r6", [⟨1, 4⟩, ⟨1, 4⟩, ⟨1, 4⟩], 0⟩

/-- C6 witness: the grant-ladder theorem applied to `qmC6`/`reqC6`
(duplicate profile entries); the hypotheses are discharged by
computation. -/
theorem CheckQuota_grant_ladder_witness :
    (((central.CheckQuota reqC6 0 qmC6).1.Quotas.filter
        (fun r => decide (r.ProfileID = 1))).map (fun r => r.Granted))
      = (central.grantRun 10 0
          ((reqC6.Quotas.filter (fun pq => decide (pq.ProfileID = 1))).map
            (fun pq => pq.Required))).1 ∧
    (((central.CheckQuota reqC6 0 qmC6).1.Quotas.filter
        (fun r => decide (r.ProfileID = 1))).map (fun r => r.Granted)).sum ≤ 10 - 0 :=
  CheckQuota_grant_ladder reqC6 0 qmC6 1 ⟨1, 10, 0, []⟩ (by decide) (by decide)
    (by intro pq hpq; fin_cases hpq <;> decide)

end ThrottleControl
